import Mathlib

set_option maxRecDepth 40000

/-!
Shallow embedding of `src/init_template.py`, a template-initialization
script.  The pure string pipelines of the script are embedded over
`List Char`; filesystem state is an explicit `World` record; user input
and the outcome of the one external process invocation are explicit
parameters.  The character classes of the Python regular expressions
(`\w`, `\s`) and Python's `str.lower`, `str.strip` and `str.title` are
modelled over their ASCII meaning.
-/

namespace InitTemplate

/-- ASCII model of the regex class `\w`: letters, digits and underscore
(code point 95). -/
def isWordChar (c : Char) : Bool :=
  (97 ≤ c.toNat && c.toNat ≤ 122) || (65 ≤ c.toNat && c.toNat ≤ 90) ||
    (48 ≤ c.toNat && c.toNat ≤ 57) || c.toNat == 95

/-- ASCII model of the regex class `\s`: space, tab, newline, carriage
return, form feed and vertical tab. -/
def isSpaceChar (c : Char) : Bool :=
  c.toNat == 32 || c.toNat == 9 || c.toNat == 10 ||
    c.toNat == 13 || c.toNat == 12 || c.toNat == 11

/-- Characters matched by the class `[-\s]` of `to_snake_case`
(hyphen is code point 45). -/
def snakeSep (c : Char) : Bool := c.toNat == 45 || isSpaceChar c

/-- Characters matched by the class `[_\s]` of `to_kebab_case`. -/
def kebabSep (c : Char) : Bool := c.toNat == 95 || isSpaceChar c

/-- Model of `re.sub(r'[class]+', sep, text)`: every maximal run of
characters matched by `p` is replaced by the single character `sep`.
The Boolean argument records whether the previous character belonged to
a run. -/
def collapseRuns (p : Char → Bool) (sep : Char) : Bool → List Char → List Char
  | _, [] => []
  | inRun, c :: cs =>
    if p c then
      if inRun then collapseRuns p sep true cs
      else sep :: collapseRuns p sep true cs
    else c :: collapseRuns p sep false cs

/-- Characters kept by `re.sub(r'[^\w-]', '', ·)` in `to_kebab_case`. -/
def keepKebab (c : Char) : Bool := isWordChar c || c.toNat == 45

/-- `to_snake_case` from `src/init_template.py`: collapse runs of hyphens
and whitespace to one underscore, drop every character outside `\w`,
lowercase. -/
def to_snake_case (name : String) : String :=
  String.mk (((collapseRuns snakeSep '_' false name.data).filter
    isWordChar).map Char.toLower)

/-- `to_kebab_case` from `src/init_template.py`: collapse runs of
underscores and whitespace to one hyphen, drop every character outside
`[\w-]`, lowercase. -/
def to_kebab_case (name : String) : String :=
  String.mk (((collapseRuns kebabSep '-' false name.data).filter
    keepKebab).map Char.toLower)

/-- Fuelled scanner of `re.sub` with a literal pattern: every leftmost,
non-overlapping occurrence of `pat` is replaced by `repl`.  Each step
consumes at least one character, so fuel equal to the length of the
scanned list (as supplied by `subLit`) is never exhausted; the fuel only
makes the recursion structural. -/
def subLitF (pat repl : List Char) : Nat → List Char → List Char
  | 0, l => l
  | fuel + 1, l =>
    match l with
    | [] => []
    | c :: cs =>
      if pat ≠ [] ∧ pat = l.take pat.length then
        repl ++ subLitF pat repl fuel (l.drop pat.length)
      else
        c :: subLitF pat repl fuel cs

/-- Model of `re.sub` with a literal pattern.  The patterns the script
uses are all non-empty; an empty pattern is treated as the identity. -/
def subLit (pat repl : List Char) (l : List Char) : List Char :=
  subLitF pat repl l.length l

/-- Whether `pat` occurs as a contiguous substring of `l`. -/
def occurs (pat : List Char) : List Char → Bool
  | [] => pat.isEmpty
  | c :: cs => (pat == (c :: cs).take pat.length) || occurs pat cs

/-- Case-insensitive character comparison (`re.IGNORECASE`, ASCII). -/
def ciChar (a b : Char) : Bool := a.toLower == b.toLower

/-- Case-insensitive list comparison. -/
def ciEq : List Char → List Char → Bool
  | [], [] => true
  | a :: as, b :: bs => ciChar a b && ciEq as bs
  | _, _ => false

/-- Greedy matcher for `.*` followed by the continuation `k` (without
DOTALL, `.` does not match a newline).  Returns the total number of
characters matched, trying the longest extent of `.*` first, as Python's
backtracking engine does. -/
def matchDotStarThen (k : List Char → Option Nat) : List Char → Option Nat
  | [] => k []
  | c :: cs =>
    if c == '\n' then k (c :: cs)
    else
      match matchDotStarThen k cs with
      | some n => some (n + 1)
      | none => k (c :: cs)

/-- Matcher for the final literal `"` of the description pattern. -/
def matchQuote : List Char → Option Nat
  | [] => none
  | c :: _ => if c == '"' then some 1 else none

/-- The literal head `description = "` of the description pattern. -/
def descLit : List Char := "description = \"".data

/-- The literal `template` inside the description pattern. -/
def tmplLit : List Char := "template".data

/-- Matcher, at the head of `l`, for the case-insensitive regex
`description = ".*template.*"` used by `update_pyproject_toml`; returns
the length of the greedy match when one starts here. -/
def matchDesc (l : List Char) : Option Nat :=
  if ciEq (l.take 15) descLit then
    (matchDotStarThen
      (fun m =>
        if ciEq (m.take 8) tmplLit then
          (matchDotStarThen matchQuote (m.drop 8)).map (· + 8)
        else none)
      (l.drop 15)).map (· + 15)
  else none

/-- Fuelled scanner of `re.sub` with the description regex: scan left to
right, replacing each match by `repl` and continuing after it.
`matchDesc` never matches fewer than 16 characters, so the zero-length
guard is unreachable; as in `subLitF`, fuel equal to the length of the
scanned list is never exhausted. -/
def subDescF (repl : List Char) : Nat → List Char → List Char
  | 0, l => l
  | fuel + 1, l =>
    match l with
    | [] => []
    | c :: cs =>
      match matchDesc l with
      | some n =>
        if n = 0 then c :: subDescF repl fuel cs
        else repl ++ subDescF repl fuel (l.drop n)
      | none => c :: subDescF repl fuel cs

/-- Model of `re.sub` with the description regex. -/
def subDesc (repl : List Char) (l : List Char) : List Char :=
  subDescF repl l.length l

/-- Whether the description regex matches anywhere in `l`. -/
def descPresent : List Char → Bool
  | [] => false
  | c :: cs => (matchDesc (c :: cs)).isSome || descPresent cs

/-- Pattern of the project-name substitution. -/
def namePat : List Char := "name = \"template-package\"".data

/-- Replacement of the project-name substitution. -/
def nameRepl (project_name : String) : List Char :=
  ("name = \"" ++ project_name ++ "\"").data

/-- Replacement of the description substitution. -/
def descRepl (project_name : String) : List Char :=
  ("description = \"" ++ project_name ++ " - A GenAI application\"").data

/-- Pattern of the author-name substitution. -/
def authorPat : List Char := "name = \"Your Name\"".data

/-- Replacement of the author-name substitution. -/
def authorRepl (author_name : String) : List Char :=
  ("name = \"" ++ author_name ++ "\"").data

/-- Pattern of the author-email substitution (the source regex escapes
its dots, so it is a literal). -/
def emailPat : List Char := "email = \"your.email@example.com\"".data

/-- Replacement of the author-email substitution. -/
def emailRepl (author_email : String) : List Char :=
  ("email = \"" ++ author_email ++ "\"").data

/-- The four text substitutions of `update_pyproject_toml`, in source
order.  Replacements are inserted literally: the replacement strings the
script builds contain no backslash, so Python's escape processing of the
replacement argument of `re.sub` coincides with literal insertion. -/
def updateData (project_name author_name author_email : String)
    (l : List Char) : List Char :=
  subLit emailPat (emailRepl author_email)
    (subLit authorPat (authorRepl author_name)
      (subDesc (descRepl project_name)
        (subLit namePat (nameRepl project_name) l)))

/-- Filesystem state: the existing directories, and the existing regular
files with their text contents, as paths relative to the working
directory. -/
structure World where
  dirs : List String
  files : List (String × String)
deriving DecidableEq

/-- `Path(p).exists()`: `p` is an existing directory or file. -/
def pathExists (w : World) (p : String) : Bool :=
  w.dirs.contains p || w.files.any (fun f => f.1 == p)

/-- Content of the regular file at `p`, when one exists. -/
def lookupFile (w : World) (p : String) : Option String :=
  (w.files.find? (fun f => f.1 == p)).map (fun f => f.2)

/-- `Path(p).write_text(c)`: overwrite or create the file at `p`. -/
def writeFile (w : World) (p c : String) : World :=
  if w.files.any (fun f => f.1 == p) then
    { w with files := w.files.map (fun f => if f.1 == p then (p, c) else f) }
  else
    { w with files := w.files ++ [(p, c)] }

/-- Relocation of one path by `shutil.move old new`: the moved path
itself, or anything strictly below it, is re-rooted at `new`. -/
def movePath (old_path new_path p : String) : String :=
  if p == old_path then new_path
  else if (old_path ++ "/") == p.take (old_path ++ "/").length then
    new_path ++ "/" ++ p.drop (old_path ++ "/").length
  else p

/-- `rename_package` from the script: refuse when the source path
`src/<old>` is missing, refuse when the target path `src/<new>` already
exists, otherwise move the whole subtree. -/
def rename_package (w : World) (old_name new_name : String) : World × Bool :=
  let old_path := "src/" ++ old_name
  let new_path := "src/" ++ new_name
  if !pathExists w old_path then (w, false)
  else if pathExists w new_path then (w, false)
  else
    ({ dirs := w.dirs.map (movePath old_path new_path),
       files := w.files.map (fun f => (movePath old_path new_path f.1, f.2)) },
     true)

/-- `update_pyproject_toml` from the script.  The `package_name`
parameter is part of the source signature and, as in the source, is not
used by the body.  A missing (or unreadable) `pyproject.toml` yields
failure; otherwise the four substitutions are applied and the file is
written back. -/
def update_pyproject_toml (w : World)
    (package_name project_name author_name author_email : String) :
    World × Bool :=
  match lookupFile w "pyproject.toml" with
  | none => (w, false)
  | some content =>
    (writeFile w "pyproject.toml"
      (String.mk (updateData project_name author_name author_email
        content.data)),
     true)

/-- ASCII model of Python `str.title`: a letter following a non-letter
is uppercased, a letter following a letter is lowercased. -/
def titleCase : Bool → List Char → List Char
  | _, [] => []
  | prevAlpha, c :: cs =>
    if c.isAlpha then
      (if prevAlpha then c.toLower else c.toUpper) :: titleCase true cs
    else c :: titleCase false cs

/-- The templated content written into the package marker file:
`package_name.replace('_', ' ').title()` followed by the fixed body. -/
def initContent (package_name : String) : String :=
  "\"\"\"\n" ++
    String.mk (titleCase false
      (package_name.data.map (fun c => if c == '_' then ' ' else c))) ++
    "\n\nYour GenAI application package.\n\"\"\"\n\n__version__ = \"0.1.0\"\n\n__all__ = [\"__version__\"]\n"

/-- `update_package_init` from the script: a missing marker file is a
warning and the step reports success; otherwise the marker file is
overwritten (a write failure, also non-fatal in the source, is not
representable in the pure model). -/
def update_package_init (w : World) (package_name : String) : World × Bool :=
  let init_path := "src/" ++ package_name ++ "/__init__.py"
  if !pathExists w init_path then (w, true)
  else (writeFile w init_path (initContent package_name), true)

/-- ASCII model of Python `str.strip`. -/
def strip (s : String) : String :=
  String.mk (((s.data.dropWhile isSpaceChar).reverse.dropWhile
    isSpaceChar).reverse)

/-- ASCII model of Python `str.lower` on strings. -/
def lowerStr (s : String) : String := String.mk (s.data.map Char.toLower)

/-- `response.strip().lower()`, applied to every interactive answer. -/
def normResp (s : String) : String := lowerStr (strip s)

/-- `reinit_git` from the script.  The prompt answer and the outcome of
the external `git init` invocation are explicit parameters.  On an
affirmative answer the old `.git` subtree is removed when present; when
`git init` fails the warning path returns `False`, otherwise a fresh
`.git` directory appears (its inner files are not tracked). -/
def reinit_git (w : World) (response : String) (gitInitOk : Bool) :
    World × Bool :=
  if normResp response == "y" || normResp response == "yes" then
    let w1 : World :=
      { dirs := w.dirs.filter (fun d => d != ".git"),
        files := w.files.filter (fun f =>
          !(f.1 == ".git" || ".git/" == f.1.take 5)) }
    if gitInitOk then ({ w1 with dirs := w1.dirs ++ [".git"] }, true)
    else (w1, false)
  else (w, true)

/-- `remove_self` from the script: delete the running script file; a
failure to delete is reported and ignored. -/
def remove_self (w : World) : World :=
  { w with files := w.files.filter (fun f => f.1 != "init_template.py") }

/-- `main` from the script.  The four values produced by
`get_user_input` (purely interactive, no filesystem effect) and the
three later prompt answers are parameters; the result is the final
filesystem state together with the process exit code. -/
def main (package_name project_name author_name author_email : String)
    (confirmResp gitResp removeResp : String) (gitInitOk : Bool)
    (w : World) : World × Nat :=
  if !pathExists w "pyproject.toml" then (w, 1)
  else if normResp confirmResp == "n" || normResp confirmResp == "no" then
    (w, 0)
  else
    let r1 := rename_package w "template_package" package_name
    let r2 := update_pyproject_toml r1.1 package_name project_name
      author_name author_email
    let r3 := update_package_init r2.1 package_name
    let r4 := reinit_git r3.1 gitResp gitInitOk
    if r1.2 && r2.2 && r3.2 && r4.2 then
      if normResp removeResp == "n" || normResp removeResp == "no" then
        (r4.1, 0)
      else (remove_self r4.1, 0)
    else (r4.1, 1)

/-- A sample filesystem state in which every precondition of the script
holds: the template package directory, the configuration file, a marker
file and the script itself are present. -/
def sampleWorld : World :=
  { dirs := ["src", "src/template_package"],
    files := [("pyproject.toml", "name = \"template-package\"\n"),
              ("src/template_package/__init__.py", "x"),
              ("init_template.py", "s")] }

/-- A sample configuration text containing all four placeholder
patterns. -/
def sampleToml : String :=
  "name = \"template-package\"\ndescription = \"A template project\"\nname = \"Your Name\"\nemail = \"your.email@example.com\"\n"

/- ------------------------------------------------------------------ -/
/- Helper lemmas.                                                      -/
/- ------------------------------------------------------------------ -/

theorem data_mk (l : List Char) : (String.mk l).data = l := rfl

theorem toNat_ofNat_valid {n : Nat} (h : n < 55296) :
    (Char.ofNat n).toNat = n := by
  rw [Char.ofNat, dif_pos (Or.inl h)]
  rfl

theorem char_eq_of_toNat_eq {a b : Char} (h : a.toNat = b.toNat) : a = b :=
  Char.ext (UInt32.toNat.inj h)

theorem toLower_toNat (c : Char) :
    (Char.toLower c).toNat =
      if 65 ≤ c.toNat ∧ c.toNat ≤ 90 then c.toNat + 32 else c.toNat := by
  simp only [Char.toLower, ge_iff_le]
  split
  · rename_i h
    exact toNat_ofNat_valid (by omega)
  · rfl

theorem toLower_not_upper (c : Char) :
    ¬(65 ≤ (Char.toLower c).toNat ∧ (Char.toLower c).toNat ≤ 90) := by
  rw [toLower_toNat]
  split <;> omega

theorem toLower_eq_of_not_upper {c : Char}
    (h : ¬(65 ≤ c.toNat ∧ c.toNat ≤ 90)) : Char.toLower c = c := by
  apply char_eq_of_toNat_eq
  rw [toLower_toNat, if_neg h]

theorem toLower_toLower (c : Char) :
    Char.toLower (Char.toLower c) = Char.toLower c :=
  toLower_eq_of_not_upper (toLower_not_upper c)

theorem isWordChar_iff (c : Char) :
    isWordChar c = true ↔
      (97 ≤ c.toNat ∧ c.toNat ≤ 122) ∨ (65 ≤ c.toNat ∧ c.toNat ≤ 90) ∨
        (48 ≤ c.toNat ∧ c.toNat ≤ 57) ∨ c.toNat = 95 := by
  simp only [isWordChar, Bool.or_eq_true, Bool.and_eq_true,
    decide_eq_true_eq, beq_iff_eq]
  omega

theorem snakeSep_iff (c : Char) :
    snakeSep c = true ↔
      c.toNat = 45 ∨ c.toNat = 32 ∨ c.toNat = 9 ∨ c.toNat = 10 ∨
        c.toNat = 13 ∨ c.toNat = 12 ∨ c.toNat = 11 := by
  simp only [snakeSep, isSpaceChar, Bool.or_eq_true, beq_iff_eq]
  omega

theorem kebabSep_iff (c : Char) :
    kebabSep c = true ↔
      c.toNat = 95 ∨ c.toNat = 32 ∨ c.toNat = 9 ∨ c.toNat = 10 ∨
        c.toNat = 13 ∨ c.toNat = 12 ∨ c.toNat = 11 := by
  simp only [kebabSep, isSpaceChar, Bool.or_eq_true, beq_iff_eq]
  omega

theorem keepKebab_iff (c : Char) :
    keepKebab c = true ↔
      (97 ≤ c.toNat ∧ c.toNat ≤ 122) ∨ (65 ≤ c.toNat ∧ c.toNat ≤ 90) ∨
        (48 ≤ c.toNat ∧ c.toNat ≤ 57) ∨ c.toNat = 95 ∨ c.toNat = 45 := by
  simp only [keepKebab, isWordChar, Bool.or_eq_true, Bool.and_eq_true,
    decide_eq_true_eq, beq_iff_eq]
  omega

theorem isWordChar_toLower {c : Char} (h : isWordChar c = true) :
    isWordChar (Char.toLower c) = true := by
  rw [isWordChar_iff] at h ⊢
  rw [toLower_toNat]
  split <;> omega

theorem keepKebab_toLower {c : Char} (h : keepKebab c = true) :
    keepKebab (Char.toLower c) = true := by
  rw [keepKebab_iff] at h ⊢
  rw [toLower_toNat]
  split <;> omega

theorem snakeSep_false_of_word {c : Char} (h : isWordChar c = true) :
    snakeSep c = false := by
  rw [isWordChar_iff] at h
  rw [← Bool.not_eq_true, snakeSep_iff]
  omega

theorem kebabSep_toLower_false {c : Char} (h : kebabSep c = false) :
    kebabSep (Char.toLower c) = false := by
  rw [← Bool.not_eq_true, kebabSep_iff, toLower_toNat]
  rw [← Bool.not_eq_true, kebabSep_iff] at h
  split <;> omega

theorem collapseRuns_of_all_false (p : Char → Bool) (sep : Char) :
    ∀ (l : List Char) (b : Bool), (∀ c ∈ l, p c = false) →
      collapseRuns p sep b l = l := by
  intro l
  induction l with
  | nil => intro b _; rfl
  | cons a as ih =>
    intro b h
    have ha : p a = false := h a (List.mem_cons_self a as)
    simp only [collapseRuns, ha, Bool.false_eq_true, if_false]
    rw [ih false (fun c hc => h c (List.mem_cons_of_mem _ hc))]

theorem mem_collapseRuns {p : Char → Bool} {sep : Char} :
    ∀ {l : List Char} {b : Bool} {c : Char},
      c ∈ collapseRuns p sep b l → c = sep ∨ p c = false := by
  intro l
  induction l with
  | nil => intro b c h; simp [collapseRuns] at h
  | cons a as ih =>
    intro b c h
    rcases hp : p a with hpf | hpt
    · rw [collapseRuns.eq_def] at h
      simp only [hp, Bool.false_eq_true, if_false, List.mem_cons] at h
      rcases h with rfl | h
      · exact Or.inr hp
      · exact ih h
    · rw [collapseRuns.eq_def] at h
      simp only [hp, if_true] at h
      cases b with
      | true => exact ih h
      | false =>
        rcases List.mem_cons.mp h with rfl | h
        · exact Or.inl rfl
        · exact ih h

theorem mem_to_snake_case {s : String} {c : Char}
    (h : c ∈ (to_snake_case s).data) :
    isWordChar c = true ∧ Char.toLower c = c ∧ snakeSep c = false ∧
      ¬(65 ≤ c.toNat ∧ c.toNat ≤ 90) := by
  simp only [to_snake_case, data_mk] at h
  obtain ⟨d, hd, rfl⟩ := List.mem_map.mp h
  obtain ⟨_, hdw⟩ := List.mem_filter.mp hd
  exact ⟨isWordChar_toLower hdw, toLower_toLower d,
    snakeSep_false_of_word (isWordChar_toLower hdw), toLower_not_upper d⟩

theorem mem_to_kebab_case {s : String} {c : Char}
    (h : c ∈ (to_kebab_case s).data) :
    keepKebab c = true ∧ Char.toLower c = c ∧ kebabSep c = false ∧
      ¬(65 ≤ c.toNat ∧ c.toNat ≤ 90) := by
  simp only [to_kebab_case, data_mk] at h
  obtain ⟨d, hd, rfl⟩ := List.mem_map.mp h
  obtain ⟨hdc, hdw⟩ := List.mem_filter.mp hd
  refine ⟨keepKebab_toLower hdw, toLower_toLower d, ?_, toLower_not_upper d⟩
  rcases mem_collapseRuns hdc with rfl | hsep
  · decide
  · exact kebabSep_toLower_false hsep

theorem snake_fix {l : List Char}
    (h : ∀ c ∈ l, isWordChar c = true ∧ Char.toLower c = c ∧
      snakeSep c = false) :
    to_snake_case (String.mk l) = String.mk l := by
  unfold to_snake_case
  rw [data_mk,
    collapseRuns_of_all_false _ _ l false (fun c hc => (h c hc).2.2),
    List.filter_eq_self.mpr (fun c hc => (h c hc).1),
    List.map_congr_left (fun c hc => (h c hc).2.1), List.map_id']

theorem kebab_fix {l : List Char}
    (h : ∀ c ∈ l, keepKebab c = true ∧ Char.toLower c = c ∧
      kebabSep c = false) :
    to_kebab_case (String.mk l) = String.mk l := by
  unfold to_kebab_case
  rw [data_mk,
    collapseRuns_of_all_false _ _ l false (fun c hc => (h c hc).2.2),
    List.filter_eq_self.mpr (fun c hc => (h c hc).1),
    List.map_congr_left (fun c hc => (h c hc).2.1), List.map_id']

theorem mk_data (s : String) : String.mk s.data = s := rfl

theorem subLitF_of_not_occurs (pat repl : List Char) :
    ∀ (fuel : Nat) (l : List Char), occurs pat l = false →
      subLitF pat repl fuel l = l := by
  intro fuel
  induction fuel with
  | zero => intro l _; rfl
  | succ f ih =>
    intro l h
    cases l with
    | nil => rfl
    | cons c cs =>
      rw [occurs] at h
      have h1 : (pat == (c :: cs).take pat.length) = false := by
        cases hb : (pat == (c :: cs).take pat.length) with
        | false => rfl
        | true => rw [hb, Bool.true_or] at h; exact absurd h (by simp)
      have h2 : occurs pat cs = false := by
        cases hb : occurs pat cs with
        | false => rfl
        | true => rw [hb, Bool.or_true] at h; exact absurd h (by simp)
      simp only [subLitF]
      rw [if_neg, ih cs h2]
      intro hc
      rw [hc.2] at h1
      simp at h1

theorem subLitF_occurs (pat repl : List Char) (hne : pat ≠ []) :
    ∀ (fuel : Nat) (l : List Char), l.length ≤ fuel →
      occurs pat l = true →
      ∃ pre suf, subLitF pat repl fuel l = pre ++ repl ++ suf := by
  intro fuel
  induction fuel with
  | zero =>
    intro l hl ho
    have hnil : l = [] := List.length_eq_zero.mp (Nat.le_zero.mp hl)
    subst hnil
    rw [occurs, List.isEmpty_iff] at ho
    exact absurd ho hne
  | succ f ih =>
    intro l hl ho
    cases l with
    | nil =>
      rw [occurs, List.isEmpty_iff] at ho
      exact absurd ho hne
    | cons c cs =>
      by_cases hc : pat = (c :: cs).take pat.length
      · refine ⟨[], subLitF pat repl f ((c :: cs).drop pat.length), ?_⟩
        simp only [subLitF]
        rw [if_pos ⟨hne, hc⟩]
        simp
      · have h2 : occurs pat cs = true := by
          rw [occurs] at ho
          have hb : (pat == (c :: cs).take pat.length) = false := by
            simp [beq_iff_eq, hc]
          rwa [hb, Bool.false_or] at ho
        have hl2 : cs.length ≤ f := by
          simp only [List.length_cons] at hl
          omega
        obtain ⟨pre, suf, hps⟩ := ih cs hl2 h2
        refine ⟨c :: pre, suf, ?_⟩
        simp only [subLitF]
        rw [if_neg (fun hcc => hc hcc.2), hps]
        simp

theorem subLit_of_not_occurs {pat repl l : List Char}
    (h : occurs pat l = false) : subLit pat repl l = l :=
  subLitF_of_not_occurs pat repl l.length l h

theorem subLit_occurs {pat repl l : List Char} (hne : pat ≠ [])
    (h : occurs pat l = true) :
    ∃ pre suf, subLit pat repl l = pre ++ repl ++ suf :=
  subLitF_occurs pat repl hne l.length l (Nat.le_refl _) h

theorem matchDesc_ge {l : List Char} {n : Nat} (h : matchDesc l = some n) :
    15 ≤ n := by
  rw [matchDesc] at h
  split at h
  · cases hx : matchDotStarThen
        (fun m =>
          if ciEq (m.take 8) tmplLit then
            (matchDotStarThen matchQuote (m.drop 8)).map (· + 8)
          else none)
        (l.drop 15) with
    | none => rw [hx] at h; simp at h
    | some m =>
      rw [hx] at h
      simp only [Option.map_some', Option.some.injEq] at h
      omega
  · simp at h

theorem subDescF_of_not_present (repl : List Char) :
    ∀ (fuel : Nat) (l : List Char), descPresent l = false →
      subDescF repl fuel l = l := by
  intro fuel
  induction fuel with
  | zero => intro l _; rfl
  | succ f ih =>
    intro l h
    cases l with
    | nil => rfl
    | cons c cs =>
      rw [descPresent] at h
      have h1 : matchDesc (c :: cs) = none := by
        cases hb : matchDesc (c :: cs) with
        | none => rfl
        | some n => rw [hb] at h; simp at h
      have h2 : descPresent cs = false := by
        cases hb : descPresent cs with
        | false => rfl
        | true => rw [hb, Bool.or_true] at h; exact absurd h (by simp)
      simp only [subDescF, h1]
      rw [ih cs h2]

theorem subDescF_present (repl : List Char) :
    ∀ (fuel : Nat) (l : List Char), l.length ≤ fuel →
      descPresent l = true →
      ∃ pre suf, subDescF repl fuel l = pre ++ repl ++ suf := by
  intro fuel
  induction fuel with
  | zero =>
    intro l hl ho
    have hnil : l = [] := List.length_eq_zero.mp (Nat.le_zero.mp hl)
    subst hnil
    simp [descPresent] at ho
  | succ f ih =>
    intro l hl ho
    cases l with
    | nil => simp [descPresent] at ho
    | cons c cs =>
      cases hm : matchDesc (c :: cs) with
      | some n =>
        have hn : 15 ≤ n := matchDesc_ge hm
        refine ⟨[], subDescF repl f ((c :: cs).drop n), ?_⟩
        simp only [subDescF, hm]
        rw [if_neg (by omega)]
        simp
      | none =>
        have h2 : descPresent cs = true := by
          rw [descPresent, hm] at ho
          simpa using ho
        have hl2 : cs.length ≤ f := by
          simp only [List.length_cons] at hl
          omega
        obtain ⟨pre, suf, hps⟩ := ih cs hl2 h2
        refine ⟨c :: pre, suf, ?_⟩
        simp only [subDescF, hm]
        rw [hps]
        simp

theorem subDesc_of_not_present {repl l : List Char}
    (h : descPresent l = false) : subDesc repl l = l :=
  subDescF_of_not_present repl l.length l h

theorem subDesc_present {repl l : List Char} (h : descPresent l = true) :
    ∃ pre suf, subDesc repl l = pre ++ repl ++ suf :=
  subDescF_present repl l.length l (Nat.le_refl _) h

theorem update_package_init_snd (w : World) (package_name : String) :
    (update_package_init w package_name).2 = true := by
  simp only [update_package_init]
  split <;> rfl

/- ------------------------------------------------------------------ -/
/- Claim theorems.                                                     -/
/- ------------------------------------------------------------------ -/

/-- C2: on the input `"My GenAI App"`, `to_snake_case` returns exactly
`"my_genai_app"` and `to_kebab_case` returns exactly `"my-genai-app"`. -/
theorem example_name_derivation :
    to_snake_case "My GenAI App" = "my_genai_app" ∧
      to_kebab_case "My GenAI App" = "my-genai-app" := by
  decide

/-- C3: both name transformers are idempotent: reapplying
`to_snake_case` (resp. `to_kebab_case`) to its own output returns that
output unchanged, for every input string. -/
theorem transformers_idempotent (s : String) :
    to_snake_case (to_snake_case s) = to_snake_case s ∧
      to_kebab_case (to_kebab_case s) = to_kebab_case s := by
  constructor
  · conv_lhs => rw [← mk_data (to_snake_case s)]
    rw [snake_fix (fun c hc => ⟨(mem_to_snake_case hc).1,
      (mem_to_snake_case hc).2.1, (mem_to_snake_case hc).2.2.1⟩), mk_data]
  · conv_lhs => rw [← mk_data (to_kebab_case s)]
    rw [kebab_fix (fun c hc => ⟨(mem_to_kebab_case hc).1,
      (mem_to_kebab_case hc).2.1, (mem_to_kebab_case hc).2.2.1⟩), mk_data]

/-- C4: for every input string, every character of the `to_snake_case`
output is a lowercase letter, a digit or an underscore, and every
character of the `to_kebab_case` output is a lowercase letter, a digit,
an underscore (a word character) or a hyphen. -/
theorem transformers_charset (s : String) :
    (∀ c ∈ (to_snake_case s).data,
      (97 ≤ c.toNat ∧ c.toNat ≤ 122) ∨ (48 ≤ c.toNat ∧ c.toNat ≤ 57) ∨
        c.toNat = 95) ∧
    (∀ c ∈ (to_kebab_case s).data,
      (97 ≤ c.toNat ∧ c.toNat ≤ 122) ∨ (48 ≤ c.toNat ∧ c.toNat ≤ 57) ∨
        c.toNat = 95 ∨ c.toNat = 45) := by
  constructor
  · intro c hc
    obtain ⟨hw, -, -, hu⟩ := mem_to_snake_case hc
    rw [isWordChar_iff] at hw
    omega
  · intro c hc
    obtain ⟨hw, -, -, hu⟩ := mem_to_kebab_case hc
    rw [keepKebab_iff] at hw
    omega

/-- Witness for C4 at the concrete input `"My GenAI App"`. -/
theorem transformers_charset_witness :
    ((97 ≤ 'm'.toNat ∧ 'm'.toNat ≤ 122) ∨ (48 ≤ 'm'.toNat ∧ 'm'.toNat ≤ 57) ∨
      'm'.toNat = 95) ∧
    ((97 ≤ '-'.toNat ∧ '-'.toNat ≤ 122) ∨ (48 ≤ '-'.toNat ∧ '-'.toNat ≤ 57) ∨
      '-'.toNat = 95 ∨ '-'.toNat = 45) :=
  ⟨(transformers_charset "My GenAI App").1 'm' (by decide),
   (transformers_charset "My GenAI App").2 '-' (by decide)⟩

/-- C5: `rename_package` returns failure with the filesystem untouched
when the source directory `src/<old>` does not exist, and likewise when
the destination `src/<new>` already exists. -/
theorem rename_package_guards (w : World) (old_name new_name : String) :
    (pathExists w ("src/" ++ old_name) = false →
      rename_package w old_name new_name = (w, false)) ∧
    (pathExists w ("src/" ++ new_name) = true →
      rename_package w old_name new_name = (w, false)) := by
  constructor
  · intro h
    simp [rename_package, h]
  · intro h
    by_cases h1 : pathExists w ("src/" ++ old_name) <;>
      simp [rename_package, h1, h]

/-- Witness for C5: a missing source and an existing destination, in
the sample filesystem. -/
theorem rename_package_guards_witness :
    rename_package sampleWorld "nosuch" "fresh" = (sampleWorld, false) ∧
      rename_package sampleWorld "alsonosuch" "template_package" =
        (sampleWorld, false) :=
  ⟨(rename_package_guards sampleWorld "nosuch" "fresh").1 (by decide),
   (rename_package_guards sampleWorld "alsonosuch" "template_package").2
     (by decide)⟩

/-- C10: a same-name rename is rejected: when `src/<n>` exists,
`rename_package n n` fails because the existing-destination check fires
on the source path itself. -/
theorem rename_package_same_name (w : World) (n : String)
    (h : pathExists w ("src/" ++ n) = true) :
    rename_package w n n = (w, false) := by
  simp [rename_package, h]

/-- Witness for C10: entering the template package name itself fails. -/
theorem rename_package_same_name_witness :
    rename_package sampleWorld "template_package" "template_package" =
      (sampleWorld, false) :=
  rename_package_same_name sampleWorld "template_package" (by decide)

/-- C6: each of the four substitutions of the config editor fires only
when its pattern is present: an absent pattern leaves the text
unchanged, a present pattern rewrites the field with the user-supplied
value; with all four patterns absent the whole `update_pyproject_toml`
text transformation is the identity. -/
theorem update_pyproject_substitution_behaviour
    (project_name author_name author_email : String) (l : List Char) :
    (occurs namePat l = false →
      subLit namePat (nameRepl project_name) l = l) ∧
    (occurs namePat l = true →
      ∃ pre suf, subLit namePat (nameRepl project_name) l =
        pre ++ nameRepl project_name ++ suf) ∧
    (descPresent l = false →
      subDesc (descRepl project_name) l = l) ∧
    (descPresent l = true →
      ∃ pre suf, subDesc (descRepl project_name) l =
        pre ++ descRepl project_name ++ suf) ∧
    (occurs authorPat l = false →
      subLit authorPat (authorRepl author_name) l = l) ∧
    (occurs authorPat l = true →
      ∃ pre suf, subLit authorPat (authorRepl author_name) l =
        pre ++ authorRepl author_name ++ suf) ∧
    (occurs emailPat l = false →
      subLit emailPat (emailRepl author_email) l = l) ∧
    (occurs emailPat l = true →
      ∃ pre suf, subLit emailPat (emailRepl author_email) l =
        pre ++ emailRepl author_email ++ suf) ∧
    (occurs namePat l = false → descPresent l = false →
      occurs authorPat l = false → occurs emailPat l = false →
      updateData project_name author_name author_email l = l) := by
  refine ⟨fun h => subLit_of_not_occurs h,
    fun h => subLit_occurs (by decide) h,
    fun h => subDesc_of_not_present h,
    fun h => subDesc_present h,
    fun h => subLit_of_not_occurs h,
    fun h => subLit_occurs (by decide) h,
    fun h => subLit_of_not_occurs h,
    fun h => subLit_occurs (by decide) h,
    fun h1 h2 h3 h4 => ?_⟩
  unfold updateData
  rw [subLit_of_not_occurs h1, subDesc_of_not_present h2,
    subLit_of_not_occurs h3, subLit_of_not_occurs h4]

/-- Witness for C6: all four patterns absent in `"x"`, all four present
in the sample configuration text. -/
theorem update_pyproject_substitution_behaviour_witness :
    subLit namePat (nameRepl "p") ("x").data = ("x").data ∧
    (∃ pre suf, subLit namePat (nameRepl "p") sampleToml.data =
      pre ++ nameRepl "p" ++ suf) ∧
    subDesc (descRepl "p") ("x").data = ("x").data ∧
    (∃ pre suf, subDesc (descRepl "p") sampleToml.data =
      pre ++ descRepl "p" ++ suf) ∧
    subLit authorPat (authorRepl "a") ("x").data = ("x").data ∧
    (∃ pre suf, subLit authorPat (authorRepl "a") sampleToml.data =
      pre ++ authorRepl "a" ++ suf) ∧
    subLit emailPat (emailRepl "e") ("x").data = ("x").data ∧
    (∃ pre suf, subLit emailPat (emailRepl "e") sampleToml.data =
      pre ++ emailRepl "e" ++ suf) ∧
    updateData "p" "a" "e" ("x").data = ("x").data :=
  ⟨(update_pyproject_substitution_behaviour "p" "a" "e" ("x").data).1
      (by decide),
   (update_pyproject_substitution_behaviour "p" "a" "e" sampleToml.data).2.1
      (by decide),
   (update_pyproject_substitution_behaviour "p" "a" "e" ("x").data).2.2.1
      (by decide),
   (update_pyproject_substitution_behaviour "p" "a" "e"
      sampleToml.data).2.2.2.1 (by decide),
   (update_pyproject_substitution_behaviour "p" "a" "e"
      ("x").data).2.2.2.2.1 (by decide),
   (update_pyproject_substitution_behaviour "p" "a" "e"
      sampleToml.data).2.2.2.2.2.1 (by decide),
   (update_pyproject_substitution_behaviour "p" "a" "e"
      ("x").data).2.2.2.2.2.2.1 (by decide),
   (update_pyproject_substitution_behaviour "p" "a" "e"
      sampleToml.data).2.2.2.2.2.2.2.1 (by decide),
   (update_pyproject_substitution_behaviour "p" "a" "e"
      ("x").data).2.2.2.2.2.2.2.2 (by decide) (by decide) (by decide)
      (by decide)⟩

/-- C7: when the user declines the final confirmation prompt, `main`
mutates nothing and exits with code 0. -/
theorem main_decline_no_mutation
    (package_name project_name author_name author_email : String)
    (confirmResp gitResp removeResp : String) (gitInitOk : Bool)
    (w : World)
    (h1 : pathExists w "pyproject.toml" = true)
    (h2 : normResp confirmResp = "n" ∨ normResp confirmResp = "no") :
    main package_name project_name author_name author_email confirmResp
      gitResp removeResp gitInitOk w = (w, 0) := by
  rcases h2 with h2 | h2 <;> simp [main, h1, h2]

/-- Witness for C7 at the concrete declining answer `" N "`. -/
theorem main_decline_no_mutation_witness :
    main "p" "q" "a" "e" " N " "y" "" false sampleWorld =
      (sampleWorld, 0) :=
  main_decline_no_mutation "p" "q" "a" "e" " N " "y" "" false sampleWorld
    (by decide) (Or.inl (by decide))

/-- C8: the package-marker writer reports success for every input, so
it can never flip the overall success flag. -/
theorem update_package_init_always_succeeds (w : World)
    (package_name : String) :
    (update_package_init w package_name).2 = true :=
  update_package_init_snd w package_name

/-- C9: `update_pyproject_toml` is independent of its `package_name`
argument: two calls differing only in that argument return identical
filesystem states and success flags. -/
theorem update_pyproject_toml_ignores_package_name (w : World)
    (p₁ p₂ project_name author_name author_email : String) :
    update_pyproject_toml w p₁ project_name author_name author_email =
      update_pyproject_toml w p₂ project_name author_name author_email :=
  rfl

/-- C1 counterexample: a concrete run in which the rename, config-edit
and marker steps all succeed and only the git reinitialization fails,
yet `main` exits with code 1, not 0. -/
theorem reinit_git_failure_flips_exit :
    (rename_package sampleWorld "template_package" "myapp").2 = true ∧
    (update_pyproject_toml
      (rename_package sampleWorld "template_package" "myapp").1
      "myapp" "my-proj" "Al" "al@x.com").2 = true ∧
    (update_package_init
      (update_pyproject_toml
        (rename_package sampleWorld "template_package" "myapp").1
        "myapp" "my-proj" "Al" "al@x.com").1 "myapp").2 = true ∧
    (reinit_git
      (update_package_init
        (update_pyproject_toml
          (rename_package sampleWorld "template_package" "myapp").1
          "myapp" "my-proj" "Al" "al@x.com").1 "myapp").1
      "y" false).2 = false ∧
    (main "myapp" "my-proj" "Al" "al@x.com" "" "y" "" false
      sampleWorld).2 = 1 := by
  decide

/-- C1 amended: the combined success flag also includes the git
reinitialization step, so when the rename and config-edit steps succeed
but git reinitialization fails, `main` exits with code 1. -/
theorem main_git_failure_nonzero
    (package_name project_name author_name author_email : String)
    (confirmResp gitResp removeResp : String) (gitInitOk : Bool)
    (w : World)
    (h1 : pathExists w "pyproject.toml" = true)
    (h2 : normResp confirmResp ≠ "n")
    (h3 : normResp confirmResp ≠ "no")
    (hrename : (rename_package w "template_package" package_name).2 = true)
    (hupdate : (update_pyproject_toml
      (rename_package w "template_package" package_name).1
      package_name project_name author_name author_email).2 = true)
    (hgit : (reinit_git
      (update_package_init
        (update_pyproject_toml
          (rename_package w "template_package" package_name).1
          package_name project_name author_name author_email).1
        package_name).1
      gitResp gitInitOk).2 = false) :
    (main package_name project_name author_name author_email confirmResp
      gitResp removeResp gitInitOk w).2 = 1 := by
  have hc : (normResp confirmResp == "n" ||
      normResp confirmResp == "no") = false := by
    simp [h2, h3]
  simp only [main, h1, hc, Bool.not_true, Bool.false_eq_true, if_false]
  rw [hrename, hupdate, update_package_init_snd, hgit]
  simp

/-- Witness for the amended C1: the same concrete run as the
counterexample, through the general theorem. -/
theorem main_git_failure_nonzero_witness :
    (main "myapp" "my-proj" "Al" "al@x.com" "" "y" "" false
      sampleWorld).2 = 1 :=
  main_git_failure_nonzero "myapp" "my-proj" "Al" "al@x.com" "" "y" ""
    false sampleWorld (by decide) (by decide) (by decide) (by decide)
    (by decide) (by decide)

end InitTemplate
